import Mathlib

/-!
A verification development for the DecentraThon recommendation pipeline
(src/DecentraThon/src).  Python strings are modelled as `List Char`, so that
`len`, slicing and indexing match Python's code-point semantics; monetary
values are modelled as `ℚ`; timestamps as `ℤ` (dates) or `ℚ` (wall-clock
seconds); fallible parses as `Option`.
-/

/-! ## Python string primitives -/

/-- Characters stripped by Python `str.strip()` with no argument (the
whitespace characters that occur in this code base, including NBSP which is
Unicode whitespace). -/
def isPySpace (c : Char) : Bool :=
  c == ' ' || c == '\t' || c == '\n' || c == '\r' || c == '\u000b' ||
    c == '\u000c' || c == ' '

/-- Python `str.lstrip` restricted to a character predicate. -/
def lstripP (p : Char → Bool) (l : List Char) : List Char :=
  l.dropWhile p

/-- Python `str.rstrip` restricted to a character predicate. -/
def rstripP (p : Char → Bool) (l : List Char) : List Char :=
  (l.reverse.dropWhile p).reverse

/-- Python `str.strip()` (no argument: whitespace). -/
def pyStrip (l : List Char) : List Char :=
  rstripP isPySpace (lstripP isPySpace l)

/-- Python `str.rstrip()` (no argument: whitespace). -/
def rstripWs (l : List Char) : List Char :=
  rstripP isPySpace l

/-- Python `str.rstrip(" ,;")` as used in `_smart_clamp`. -/
def rstripSpComSemi (l : List Char) : List Char :=
  rstripP (fun c => c == ' ' || c == ',' || c == ';') l

/-- Python `str.rstrip(".!?")` as used in `ensure_cta`. -/
def rstripDotBangQm (l : List Char) : List Char :=
  rstripP (fun c => c == '.' || c == '!' || c == '?') l

/-- Python `str.lower()` for the characters appearing in this code base
(ASCII letters and the Cyrillic block, including Ё). -/
def charLower (c : Char) : Char :=
  if 'A' ≤ c ∧ c ≤ 'Z' then Char.ofNat (c.toNat + 32)
  else if 'А' ≤ c ∧ c ≤ 'Я' then Char.ofNat (c.toNat + 32)
  else if c = 'Ё' then 'ё'
  else c

/-- Lowercase an entire string. -/
def lowerList (l : List Char) : List Char :=
  l.map charLower

/-- Python regex `\w` (word character) for the alphabets appearing in this
code base: ASCII alphanumerics, underscore, and the Cyrillic block
U+0400..U+04FF. -/
def isWordChar (c : Char) : Bool :=
  c.isAlphanum || c == '_' || ('Ѐ' ≤ c && c ≤ 'ӿ')

/-- Exact prefix test (`needle` begins `hay`). -/
def beginsWith : List Char → List Char → Bool
  | [], _ => true
  | _ :: _, [] => false
  | a :: as, b :: bs => (a == b) && beginsWith as bs

/-- Python `needle in hay` substring test. -/
def hasSub (needle hay : List Char) : Bool :=
  (List.range (hay.length + 1)).any fun i => beginsWith needle (hay.drop i)

/-! ## The CTA regular expression

`_CTA_RE = \b(Открыть|Оформить|Подключить|Подключите|Посмотреть|Настроить|Узнать)\b`
with `re.IGNORECASE`.  Because every alternative is `\b`-delimited on both
sides, two matches can never overlap, so the set of match-start positions
found by `finditer` is exactly the set of positions at which some
alternative matches with word boundaries on both sides; `search` succeeds
iff that set is non-empty. -/

/-- The CTA alternatives, lowercased (matching is case-insensitive). -/
def ctaWords : List (List Char) :=
  ["открыть".data, "оформить".data, "подключить".data, "подключите".data,
   "посмотреть".data, "настроить".data, "узнать".data]

/-- Case-insensitive prefix test: pattern `w` (already lowercase) begins the
text `s`. -/
def matchesPref : List Char → List Char → Bool
  | [], _ => true
  | _ :: _, [] => false
  | w :: ws, c :: cs => (charLower c == w) && matchesPref ws cs

/-- Word boundary after a match of length `wLen` starting at the head of
`s`: end of string, or a non-word character. -/
def wordEndOk (wLen : Nat) (s : List Char) : Bool :=
  match s.drop wLen with
  | [] => true
  | c :: _ => !(isWordChar c)

/-- Some CTA alternative matches at the head of `s` (with its trailing
word boundary; the leading boundary is checked by the caller). -/
def ctaHere (s : List Char) : Bool :=
  ctaWords.any fun w => matchesPref w s && wordEndOk w.length s

/-- The leading word boundary, given the character preceding the match
position (`none` at the start of the string). -/
def prevOkB : Option Char → Bool
  | none => true
  | some c => !(isWordChar c)

/-- Scanner for `_CTA_RE.search`: walks the string carrying the previous
character for the `\b` check. -/
def ctaSearchAux : Option Char → List Char → Bool
  | _, [] => false
  | prev, c :: rest => (prevOkB prev && ctaHere (c :: rest)) || ctaSearchAux (some c) rest

/-- `_CTA_RE.search(s)` succeeds. -/
def ctaSearch (s : List Char) : Bool :=
  ctaSearchAux none s

/-- Indexed variant: some CTA alternative matches at position `i` of `t`
with word boundaries on both sides (models a `finditer` match start). -/
def matchCtaAt (t : List Char) (i : Nat) : Bool :=
  (decide (i = 0) || !(isWordChar (t.getD (i - 1) ' '))) && ctaHere (t.drop i)

/-- Start position of the last `_CTA_RE` match in `t`
(`list(_CTA_RE.finditer(t))[-1].start()`), if any. -/
def lastCtaStart (t : List Char) : Option Nat :=
  ((List.range t.length).filter (fun i => matchCtaAt t i)).getLast?

/-! ## The smart clamp (`_smart_clamp` in pushgen_llm.py) -/

/-- Tail of `re.sub(r"!{2,}", "!", ·)`: drop every bang that immediately
follows a bang, carrying the previous character. -/
def collapseBangsAux (prev : Char) : List Char → List Char
  | [] => []
  | c :: rest =>
    if prev == '!' && c == '!' then collapseBangsAux prev rest
    else c :: collapseBangsAux c rest

/-- Python `re.sub(r"!{2,}", "!", s)`: collapse runs of two or more bangs
to a single bang. -/
def collapseBangs : List Char → List Char
  | [] => []
  | c :: rest => c :: collapseBangsAux c rest

/-- Python `s.rfind(sub)`: highest index at which `sub` occurs in `s`,
`-1` if it does not occur. -/
def rfindSub (sub s : List Char) : Int :=
  match ((List.range (s.length + 1)).filter (fun i => beginsWith sub (s.drop i))).getLast? with
  | some i => (i : Int)
  | none => -1

/-- Python slice `s[:i]` for a possibly negative bound `i`. -/
def pySliceTo (l : List Char) (i : Int) : List Char :=
  if 0 ≤ i then l.take i.toNat else l.take (l.length - (-i).toNat)

/-- Python `s.endswith((".", "!", "?"))`. -/
def endsPunct (l : List Char) : Bool :=
  match l.getLast? with
  | some c => c == '.' || c == '!' || c == '?'
  | none => false

/-- The head-trimming loop of `_smart_clamp` in the branch where a CTA was
found: try the three sentence stops in order with the `budget - 40` window,
else the last-space fallback with the `budget - 25` window plus ellipsis. -/
def tryStops (head : List Char) (budget : Int) : List Char :=
  let i1 := rfindSub ". ".data head
  if i1 ≥ budget - 40 then rstripWs (pySliceTo head (i1 + 1))
  else
    let i2 := rfindSub "! ".data head
    if i2 ≥ budget - 40 then rstripWs (pySliceTo head (i2 + 1))
    else
      let i3 := rfindSub "? ".data head
      if i3 ≥ budget - 40 then rstripWs (pySliceTo head (i3 + 1))
      else
        let i := rfindSub " ".data head
        let cut := if i ≥ budget - 25 then pySliceTo head i else head
        rstripSpComSemi cut ++ "…".data

/-- The no-CTA branch of `_smart_clamp`: plain smart truncation of the
prefix `cut = t[:max_len]`. -/
def noCtaCut (cut : List Char) (maxLen : Nat) : List Char :=
  let i1 := rfindSub ". ".data cut
  if i1 ≥ (maxLen : Int) - 40 then rstripWs (pySliceTo cut (i1 + 1))
  else
    let i2 := rfindSub "! ".data cut
    if i2 ≥ (maxLen : Int) - 40 then rstripWs (pySliceTo cut (i2 + 1))
    else
      let i3 := rfindSub "? ".data cut
      if i3 ≥ (maxLen : Int) - 40 then rstripWs (pySliceTo cut (i3 + 1))
      else
        let i := rfindSub " ".data cut
        let cut2 := if i ≥ (maxLen : Int) - 25 then pySliceTo cut i else cut
        rstripSpComSemi cut2 ++ "…".data

/-- `MAX_LEN` from pushgen_llm.py. -/
def MAX_LEN : Nat := 220

/-- `_smart_clamp(text, max_len)` from pushgen_llm.py.  Nat subtraction in
`head_budget` coincides with Python's `max(max_len - len(tail) - 1, 0)`. -/
def smartClamp (text : List Char) (maxLen : Nat) : List Char :=
  let t := collapseBangs (pyStrip text)
  if t.length ≤ maxLen then t
  else
    match lastCtaStart t with
    | some st =>
      let tail0 := rstripWs (t.drop st)
      let tail := if endsPunct tail0 then tail0 else tail0 ++ ".".data
      let headBudget : Nat := maxLen - tail.length - 1
      let head := t.take headBudget
      let cut := tryStops head (headBudget : Int)
      pyStrip (cut ++ " ".data ++ tail)
    | none =>
      noCtaCut (t.take maxLen) maxLen

/-! ## Claim C1 -/

/-- The concrete input on which the clamp's length guarantee fails: a text
whose only CTA match is at position 0, so the reserved CTA tail is the whole
(over-long) text. -/
def c1FailText : List Char :=
  "Оформить карту прямо сейчас же обязательно".data

/-- C1: the claim states that `_smart_clamp` always returns a string of
length at most the cap, truncating even the CTA tail as a last resort.  The
code violates this: when the tail from the last CTA match alone exceeds the
cap, the head budget collapses to zero and the whole tail (plus a final
period) is returned untruncated.  Here the 42-character input against cap 20
yields a 43-character output. -/
theorem c1_smart_clamp_cap_violation :
    (smartClamp c1FailText 20).length = 43 ∧ 20 < (smartClamp c1FailText 20).length := by
  constructor
  · rfl
  · rw [show (smartClamp c1FailText 20).length = 43 from rfl]
    omega

/-! ## Configuration constants (config.py, `BenefitConfig`) -/

structure BenefitConfig where
  travel_cb_rate : ℚ
  travel_cb_monthly_cap : ℚ
  premium_base_cb_low : ℚ
  premium_base_cb_high : ℚ
  premium_high_balance_kzt : ℚ
  premium_fee_savings_atm_per_tx : ℚ
  premium_fee_savings_transfer_per_tx : ℚ
  premium_cb_monthly_cap : ℚ
  cc_fav_rate : ℚ
  cc_online_rate : ℚ
  cc_cb_monthly_cap : ℚ
  fx_spread_saving_rate : ℚ
  cash_loan_need_ratio : ℚ
  savings_high_rate : ℚ
  savings_accum_rate : ℚ
  multi_curr_rate : ℚ
  invest_util_rate : ℚ
  gold_util_rate : ℚ

/-- `CFG` from config.py. -/
def CFG : BenefitConfig :=
  { travel_cb_rate := 4/100
    travel_cb_monthly_cap := 15000
    premium_base_cb_low := 2/100
    premium_base_cb_high := 4/100
    premium_high_balance_kzt := 2000000
    premium_fee_savings_atm_per_tx := 300
    premium_fee_savings_transfer_per_tx := 100
    premium_cb_monthly_cap := 25000
    cc_fav_rate := 10/100
    cc_online_rate := 10/100
    cc_cb_monthly_cap := 30000
    fx_spread_saving_rate := 5/1000
    cash_loan_need_ratio := 3/2
    savings_high_rate := 13/100
    savings_accum_rate := 10/100
    multi_curr_rate := 7/100
    invest_util_rate := 3/1000
    gold_util_rate := 2/1000 }

/-! ## Benefit formulas (rules.py)

`np.inf` (the need-ratio sentinel for zero inflow) is modelled by `none` in
an `Option ℚ`; every comparison `need_ratio >= thr` is true for the
sentinel, matching IEEE infinity. -/

/-- `_cap` from rules.py. -/
def _cap (value cap_value : ℚ) : ℚ :=
  if value ≤ 0 then 0 else min value cap_value

def benefit_travel (travel_spend : ℚ) : ℚ :=
  _cap (travel_spend * CFG.travel_cb_rate) CFG.travel_cb_monthly_cap

def benefit_premium (avg_balance base_spend premium_spend : ℚ)
    (atm_cnt transfer_cnt : ℤ) : ℚ :=
  let base_rate : ℚ :=
    if CFG.premium_high_balance_kzt ≤ avg_balance then CFG.premium_base_cb_high
    else CFG.premium_base_cb_low
  let base_cb := base_rate * max base_spend 0
  let boost_cb := (4/100) * max premium_spend 0
  let fees_saved : ℚ :=
    ((max atm_cnt 0 : ℤ) : ℚ) * CFG.premium_fee_savings_atm_per_tx +
      ((max transfer_cnt 0 : ℤ) : ℚ) * CFG.premium_fee_savings_transfer_per_tx
  _cap (base_cb + boost_cb) CFG.premium_cb_monthly_cap + max fees_saved 0

def benefit_credit_card (fav_spend_sum online_spend : ℚ) : ℚ :=
  _cap (CFG.cc_fav_rate * max fav_spend_sum 0 + CFG.cc_online_rate * max online_spend 0)
    CFG.cc_cb_monthly_cap

def benefit_fx (fx_turnover : ℚ) : ℚ :=
  max fx_turnover 0 * CFG.fx_spread_saving_rate

/-- `need_ratio >= CFG.cash_loan_need_ratio`, where `none` is `np.inf`. -/
def needRatioGe (nr : Option ℚ) (thr : ℚ) : Bool :=
  match nr with
  | none => true
  | some q => decide (thr ≤ q)

def benefit_cash_loan (need_ratio : Option ℚ) (shortfall_abs : ℚ) : ℚ :=
  if needRatioGe need_ratio CFG.cash_loan_need_ratio && decide (0 < shortfall_abs) then
    (1/100) * shortfall_abs
  else 0

def benefit_deposit_savings (free_balance_3m : ℚ) : ℚ :=
  max free_balance_3m 0 * (CFG.savings_high_rate / 4)

def benefit_deposit_accum (free_balance_3m : ℚ) : ℚ :=
  max free_balance_3m 0 * (CFG.savings_accum_rate / 4)

def benefit_deposit_multi (free_balance_3m fx_turnover : ℚ) : ℚ :=
  max free_balance_3m 0 * (CFG.multi_curr_rate / 4) + (1/1000) * max fx_turnover 0

def benefit_invest (free_balance_3m : ℚ) : ℚ :=
  max free_balance_3m 0 * CFG.invest_util_rate

def benefit_gold (free_balance_3m : ℚ) : ℚ :=
  max free_balance_3m 0 * CFG.gold_util_rate

/-! ## Feature extraction (scorer.py, `compute_features_for_client`) -/

structure TxRow where
  date : ℤ
  category : List Char
  amount : ℚ
deriving DecidableEq

structure TrRow where
  date : ℤ
  ttype : List Char
  direction : List Char
  amount : ℚ
deriving DecidableEq

/-- The feature record returned by `compute_features_for_client`;
`needRatio = none` models the `np.inf` sentinel. -/
structure FeatureRecord where
  totalSpend : ℚ
  travelSpend : ℚ
  premiumSpend : ℚ
  onlineSpend : ℚ
  favSpendSum : ℚ
  atmCnt : ℤ
  transferCnt : ℤ
  needRatio : Option ℚ
  shortfall : ℚ
  fxTurnover : ℚ
  freeBal3m : ℚ
  favCats : List (List Char)
deriving DecidableEq

def TRAVEL_CATS : List (List Char) :=
  ["Путешествия".data, "Такси".data, "Отели".data, "АЗС".data]

def PREMIUM_BOOST_CATS : List (List Char) :=
  ["Ювелирные украшения".data, "Косметика и Парфюмерия".data, "Кафе и рестораны".data]

def ONLINE_CATS : List (List Char) :=
  ["Едим дома".data, "Смотрим дома".data, "Играем дома".data]

def sumAmountsTx (l : List TxRow) : ℚ :=
  (l.map TxRow.amount).sum

/-- Lexicographic order on strings (used to model the deterministic key
order of the pandas groupby; the claims depend only on determinism of the
tie-break, not on which deterministic order it is). -/
def lexLe : List Char → List Char → Bool
  | [], _ => true
  | _ :: _, [] => false
  | a :: as, b :: bs => if a == b then lexLe as bs else decide (a.toNat < b.toNat)

/-- Descending-by-score order used for ranking (`reverse=True` sort key). -/
def descR (a b : List Char × ℚ) : Prop := b.2 ≤ a.2

instance : DecidableRel descR := fun a b => inferInstanceAs (Decidable (b.2 ≤ a.2))

instance : IsTotal (List Char × ℚ) descR := ⟨fun a b => le_total b.2 a.2⟩

instance : IsTrans (List Char × ℚ) descR := ⟨fun _ _ _ h1 h2 => le_trans h2 h1⟩

/-- `groupby("category").sum()` with keys in a deterministic order. -/
def groupSums (l : List TxRow) : List (List Char × ℚ) :=
  (List.insertionSort (fun a b => lexLe a b = true) ((l.map TxRow.category).dedup)).map
    fun c => (c, sumAmountsTx (l.filter (fun r => r.category == c)))

/-- `top_categories` from utils.py: category sums sorted descending, the
first `topn` keys, and the full sorted series. -/
def top_categories (l : List TxRow) (topn : Nat) :
    List (List Char) × List (List Char × ℚ) :=
  let grp := List.insertionSort descR (groupSums l)
  ((grp.take topn).map Prod.fst, grp)

/-- The body of `compute_features_for_client` applied to the
already-window-filtered rows. -/
def computeFiltered (txm : List TxRow) (trm : List TrRow) (avg_balance : ℚ) :
    FeatureRecord :=
  let total_spend := sumAmountsTx txm
  let travel_spend := sumAmountsTx (txm.filter (fun r => TRAVEL_CATS.contains r.category))
  let premium_spend := sumAmountsTx (txm.filter (fun r => PREMIUM_BOOST_CATS.contains r.category))
  let online_spend := sumAmountsTx (txm.filter (fun r => ONLINE_CATS.contains r.category))
  let tc := top_categories txm 3
  let fav_spend_sum := if tc.1 = [] then 0 else ((tc.2.take 3).map Prod.snd).sum
  let atm_cnt : ℤ :=
    ((trm.filter (fun r => r.ttype == "atm_withdrawal".data && r.direction == "out".data)).length : ℤ)
  let transfer_cnt : ℤ :=
    ((trm.filter (fun r =>
        (r.ttype == "p2p_out".data || r.ttype == "card_out".data ||
          r.ttype == "utilities_out".data) && r.direction == "out".data)).length : ℤ)
  let inflows := ((trm.filter (fun r => r.direction == "in".data)).map TrRow.amount).sum
  let outflows := ((trm.filter (fun r => r.direction == "out".data)).map TrRow.amount).sum
  let need_ratio : Option ℚ := if 0 < inflows then some (outflows / inflows) else none
  let shortfall_abs := max 0 (outflows - inflows)
  let fx_turnover :=
    ((trm.filter (fun r => r.ttype == "fx_buy".data || r.ttype == "fx_sell".data)).map
      (fun r => |r.amount|)).sum
  ⟨total_spend, travel_spend, premium_spend, online_spend, fav_spend_sum,
    atm_cnt, transfer_cnt, need_ratio, shortfall_abs, fx_turnover,
    avg_balance * 3 / 12, tc.1⟩

/-- Membership of a date in the half-open window `[start, end)`. -/
def inWindow (s e d : ℤ) : Bool :=
  decide (s ≤ d) && decide (d < e)

/-- `compute_features_for_client(tx_client, tr_client, avg_balance, (start, end))`. -/
def compute_features_for_client (tx : List TxRow) (tr : List TrRow)
    (avg_balance : ℚ) (s e : ℤ) : FeatureRecord :=
  computeFiltered (tx.filter (fun r => inWindow s e r.date))
    (tr.filter (fun r => inWindow s e r.date)) avg_balance

/-! ## Product scoring (scorer.py, `score_products`) -/

structure ScoreResult where
  best : Option (List Char)
  top4 : List (List Char × ℚ)
  scores : List (List Char × ℚ)

/-- The `scores` dict of `score_products`, in insertion order. -/
def scoresList (feats : FeatureRecord) (avg_balance : ℚ) : List (List Char × ℚ) :=
  [("Карта для путешествий".data, benefit_travel feats.travelSpend),
   ("Премиальная карта".data,
     benefit_premium avg_balance feats.totalSpend feats.premiumSpend feats.atmCnt feats.transferCnt),
   ("Кредитная карта".data, benefit_credit_card feats.favSpendSum feats.onlineSpend),
   ("Обмен валют".data, benefit_fx feats.fxTurnover),
   ("Кредит наличными".data, benefit_cash_loan feats.needRatio feats.shortfall),
   ("Депозит мультивалютный".data, benefit_deposit_multi feats.freeBal3m feats.fxTurnover),
   ("Депозит сберегательный (с «заморозкой»)".data, benefit_deposit_savings feats.freeBal3m),
   ("Депозит накопительный".data, benefit_deposit_accum feats.freeBal3m),
   ("Инвестиции (брокерский счёт)".data, benefit_invest feats.freeBal3m),
   ("Золотые слитки".data, benefit_gold feats.freeBal3m)]

/-- `score_products` from scorer.py: `sorted(scores.items(), key=score,
reverse=True)` is a stable descending sort, modelled by `insertionSort`
with the `descR` order (stable sorts agree on their output). -/
def score_products (feats : FeatureRecord) (avg_balance : ℚ) : ScoreResult :=
  let scores := scoresList feats avg_balance
  let top4 := (List.insertionSort descR scores).take 4
  { best := top4.head?.map Prod.fst, top4 := top4, scores := scores }

/-! ## Claim C2 -/

lemma cap_nonneg (v c : ℚ) (hc : 0 ≤ c) : 0 ≤ _cap v c := by
  unfold _cap
  split
  next => exact le_refl 0
  next h => exact le_min (le_of_lt (not_le.mp h)) hc

lemma benefit_travel_nonneg (x : ℚ) : 0 ≤ benefit_travel x :=
  cap_nonneg _ _ (by norm_num [CFG])

lemma benefit_premium_nonneg (a b c : ℚ) (m n : ℤ) : 0 ≤ benefit_premium a b c m n :=
  add_nonneg (cap_nonneg _ _ (by norm_num [CFG])) (le_max_right _ 0)

lemma benefit_credit_card_nonneg (x y : ℚ) : 0 ≤ benefit_credit_card x y :=
  cap_nonneg _ _ (by norm_num [CFG])

lemma benefit_fx_nonneg (x : ℚ) : 0 ≤ benefit_fx x :=
  mul_nonneg (le_max_right _ 0) (by norm_num [CFG])

lemma benefit_cash_loan_nonneg (nr : Option ℚ) (sh : ℚ) : 0 ≤ benefit_cash_loan nr sh := by
  unfold benefit_cash_loan
  split
  next h =>
    simp only [Bool.and_eq_true, decide_eq_true_eq] at h
    exact mul_nonneg (by norm_num) h.2.le
  next => exact le_refl 0

lemma benefit_deposit_savings_nonneg (x : ℚ) : 0 ≤ benefit_deposit_savings x :=
  mul_nonneg (le_max_right _ 0) (by norm_num [CFG])

lemma benefit_deposit_accum_nonneg (x : ℚ) : 0 ≤ benefit_deposit_accum x :=
  mul_nonneg (le_max_right _ 0) (by norm_num [CFG])

lemma benefit_deposit_multi_nonneg (x y : ℚ) : 0 ≤ benefit_deposit_multi x y :=
  add_nonneg (mul_nonneg (le_max_right _ 0) (by norm_num [CFG]))
    (mul_nonneg (by norm_num) (le_max_right _ 0))

lemma benefit_invest_nonneg (x : ℚ) : 0 ≤ benefit_invest x :=
  mul_nonneg (le_max_right _ 0) (by norm_num [CFG])

lemma benefit_gold_nonneg (x : ℚ) : 0 ≤ benefit_gold x :=
  mul_nonneg (le_max_right _ 0) (by norm_num [CFG])

/-- Non-negativity of the numeric feature inputs, as hypothesised by the
claim (the `needRatio` sentinel carries no sign constraint). -/
def NonnegFeatures (f : FeatureRecord) : Prop :=
  0 ≤ f.totalSpend ∧ 0 ≤ f.travelSpend ∧ 0 ≤ f.premiumSpend ∧ 0 ≤ f.onlineSpend ∧
    0 ≤ f.favSpendSum ∧ 0 ≤ f.atmCnt ∧ 0 ≤ f.transferCnt ∧ 0 ≤ f.shortfall ∧
    0 ≤ f.fxTurnover ∧ 0 ≤ f.freeBal3m

/-- C2: for every feature record with non-negative numeric inputs and every
non-negative average balance, each of the ten product benefit functions
returns a value ≥ 0, and hence every entry of the score map produced by
`score_products` is non-negative. -/
theorem c2_scores_nonneg (f : FeatureRecord) (avg : ℚ)
    (hf : NonnegFeatures f) (ha : 0 ≤ avg) :
    0 ≤ benefit_travel f.travelSpend ∧
      0 ≤ benefit_premium avg f.totalSpend f.premiumSpend f.atmCnt f.transferCnt ∧
      0 ≤ benefit_credit_card f.favSpendSum f.onlineSpend ∧
      0 ≤ benefit_fx f.fxTurnover ∧
      0 ≤ benefit_cash_loan f.needRatio f.shortfall ∧
      0 ≤ benefit_deposit_savings f.freeBal3m ∧
      0 ≤ benefit_deposit_accum f.freeBal3m ∧
      0 ≤ benefit_deposit_multi f.freeBal3m f.fxTurnover ∧
      0 ≤ benefit_invest f.freeBal3m ∧
      0 ≤ benefit_gold f.freeBal3m ∧
      ∀ pr ∈ (score_products f avg).scores, 0 ≤ pr.2 := by
  refine ⟨benefit_travel_nonneg _, benefit_premium_nonneg _ _ _ _ _,
    benefit_credit_card_nonneg _ _, benefit_fx_nonneg _, benefit_cash_loan_nonneg _ _,
    benefit_deposit_savings_nonneg _, benefit_deposit_accum_nonneg _,
    benefit_deposit_multi_nonneg _ _, benefit_invest_nonneg _, benefit_gold_nonneg _, ?_⟩
  intro pr hpr
  simp only [score_products, scoresList, List.mem_cons, List.not_mem_nil, or_false] at hpr
  rcases hpr with rfl | rfl | rfl | rfl | rfl | rfl | rfl | rfl | rfl | rfl
  exacts [benefit_travel_nonneg _, benefit_premium_nonneg _ _ _ _ _,
    benefit_credit_card_nonneg _ _, benefit_fx_nonneg _, benefit_cash_loan_nonneg _ _,
    benefit_deposit_multi_nonneg _ _, benefit_deposit_savings_nonneg _,
    benefit_deposit_accum_nonneg _, benefit_invest_nonneg _, benefit_gold_nonneg _]

/-- Witness for C2 at a concrete non-negative feature record. -/
theorem c2_scores_nonneg_witness :
    NonnegFeatures ⟨100, 50, 10, 5, 60, 2, 3, some 2, 0, 7, 25, []⟩ ∧
      0 ≤ benefit_travel (⟨100, 50, 10, 5, 60, 2, 3, some 2, 0, 7, 25, []⟩ : FeatureRecord).travelSpend := by
  have h : NonnegFeatures ⟨100, 50, 10, 5, 60, 2, 3, some 2, 0, 7, 25, []⟩ := by
    unfold NonnegFeatures
    norm_num
  exact ⟨h, (c2_scores_nonneg _ 100 h (by norm_num)).1⟩

/-! ## Claim C6 -/

/-- C6 counterexample: on entirely empty inputs the claim says every
feature except the disposable-balance proxy is zero, but the inflow/outflow
ratio is the infinity sentinel (`none`, modelling `np.inf`), not zero. -/
theorem c6_need_ratio_counterexample :
    (compute_features_for_client [] [] 4 0 10).needRatio = none ∧
      (compute_features_for_client [] [] 4 0 10).needRatio ≠ some 0 := by
  exact ⟨rfl, by decide⟩

/-- C6 (amended): on empty or fully out-of-window inputs the extractor
succeeds and every feature is zero except the disposable-balance proxy
(`avg * 3/12`), the need ratio (the infinity sentinel, because inflow is
zero) and the (empty) favourite-category list; and `FREE_BAL_3M =
avg_balance * 3/12` holds for all inputs. -/
theorem c6_empty_features_amended :
    (∀ (tx : List TxRow) (tr : List TrRow) (avg : ℚ) (s e : ℤ),
        (∀ r ∈ tx, inWindow s e r.date = false) →
        (∀ r ∈ tr, inWindow s e r.date = false) →
        compute_features_for_client tx tr avg s e =
          ⟨0, 0, 0, 0, 0, 0, 0, none, 0, 0, avg * 3 / 12, []⟩) ∧
      ∀ (tx : List TxRow) (tr : List TrRow) (avg : ℚ) (s e : ℤ),
        (compute_features_for_client tx tr avg s e).freeBal3m = avg * 3 / 12 := by
  constructor
  · intro tx tr avg s e htx htr
    unfold compute_features_for_client
    rw [List.filter_eq_nil_iff.mpr (fun r hr => by simp [htx r hr]),
      List.filter_eq_nil_iff.mpr (fun r hr => by simp [htr r hr])]
    simp [computeFiltered, top_categories, groupSums, sumAmountsTx]
  · intro tx tr avg s e
    rfl

/-- Witness for C6 at a concrete out-of-window transaction list. -/
theorem c6_empty_features_witness :
    compute_features_for_client [⟨50, "Такси".data, 10⟩] [] 8 0 10 =
      ⟨0, 0, 0, 0, 0, 0, 0, none, 0, 0, 8 * 3 / 12, []⟩ :=
  c6_empty_features_amended.1 _ _ 8 0 10 (by decide) (by decide)

/-! ## Claim C7 -/

lemma filter_orderedInsert_key (q : ℚ) (a : List Char × ℚ) :
    ∀ l, (List.orderedInsert descR a l).filter (fun x => decide (x.2 = q)) =
      (a :: l).filter (fun x => decide (x.2 = q))
  | [] => rfl
  | b :: l => by
    simp only [List.orderedInsert]
    split
    · rfl
    · next h =>
      have hlt : a.2 < b.2 := not_le.mp (by simpa [descR] using h)
      by_cases kb : b.2 = q
      · have ka : ¬ a.2 = q := fun ka => absurd (ka.trans kb.symm) (ne_of_lt hlt)
        simp [List.filter_cons, kb, ka, filter_orderedInsert_key q a l]
      · simp [List.filter_cons, kb, filter_orderedInsert_key q a l]

lemma filter_insertionSort_key (q : ℚ) :
    ∀ l : List (List Char × ℚ),
      (List.insertionSort descR l).filter (fun x => decide (x.2 = q)) =
        l.filter (fun x => decide (x.2 = q))
  | [] => rfl
  | a :: l => by
    simp only [List.insertionSort]
    rw [filter_orderedInsert_key]
    simp [List.filter_cons, filter_insertionSort_key q l]

lemma head?_take4 (l : List (List Char × ℚ)) : (l.take 4).head? = l.head? := by
  cases l <;> rfl

/-- C7: ranking is a deterministic stable descending sort by score — the
returned top-4 is a prefix of the stable sort of the insertion-ordered
score map (a permutation of it, sorted descending, with every equal-score
class kept in catalog insertion order), re-scoring is trivially identical,
and `best` is the top-ranked product, never the null sentinel since the
catalog is non-empty. -/
theorem c7_ranking_stable_desc (f : FeatureRecord) (avg : ℚ) :
    (score_products f avg).top4 =
        (List.insertionSort descR ((score_products f avg).scores)).take 4 ∧
      (List.insertionSort descR ((score_products f avg).scores)).Perm
        ((score_products f avg).scores) ∧
      List.Sorted descR (List.insertionSort descR ((score_products f avg).scores)) ∧
      (∀ q : ℚ,
        (List.insertionSort descR ((score_products f avg).scores)).filter
            (fun x => decide (x.2 = q)) =
          ((score_products f avg).scores).filter (fun x => decide (x.2 = q))) ∧
      (score_products f avg).best =
        (List.insertionSort descR ((score_products f avg).scores)).head?.map Prod.fst ∧
      (score_products f avg).best.isSome = true ∧
      score_products f avg = score_products f avg := by
  have hsp : score_products f avg =
      { best := ((List.insertionSort descR (scoresList f avg)).take 4).head?.map Prod.fst,
        top4 := (List.insertionSort descR (scoresList f avg)).take 4,
        scores := scoresList f avg } := rfl
  rw [hsp]
  refine ⟨rfl, List.perm_insertionSort descR _, List.sorted_insertionSort descR _,
    fun q => filter_insertionSort_key q _, ?_, ?_, rfl⟩
  · exact congrArg (Option.map Prod.fst) (head?_take4 _)
  · have hlen : (List.insertionSort descR (scoresList f avg)).length = 10 := by
      rw [(List.perm_insertionSort descR (scoresList f avg)).length_eq]
      rfl
    cases hr : List.insertionSort descR (scoresList f avg) with
    | nil => rw [hr] at hlen; simp at hlen
    | cons x xs => rfl

/-! ## Amount parsing (utils.py `_parse_amount_series`, build_data.py
`_to_amount_safe`; both functions perform the identical per-cell pipeline) -/

def allDigits (l : List Char) : Bool :=
  l.all Char.isDigit

def digitsToNat (l : List Char) : Nat :=
  l.foldl (fun a c => a * 10 + (c.toNat - 48)) 0

/-- `float(...)` on a string containing only `[0-9.]`: optional integer
part, optional fractional part separated by a single dot, at least one
digit in total (exponents cannot survive the junk filter). -/
def parseUnsigned (s : List Char) : Option ℚ :=
  match s.splitOn '.' with
  | [ip] => if allDigits ip && decide (ip ≠ []) then some ((digitsToNat ip : ℚ)) else none
  | [ip, fp] =>
    if allDigits ip && allDigits fp && decide (ip ++ fp ≠ []) then
      some ((digitsToNat ip : ℚ) + (digitsToNat fp : ℚ) / (10 : ℚ) ^ fp.length)
    else none
  | _ => none

/-- `float(...)` on a string containing only `[0-9.\-]`: a minus sign is
accepted only as the first character. -/
def parseSignedFloat (s : List Char) : Option ℚ :=
  match s with
  | [] => none
  | c :: rest => if c == '-' then (parseUnsigned rest).map Neg.neg else parseUnsigned (c :: rest)

/-- The cleaning pipeline of `_parse_amount_series` / `_to_amount_safe`:
remove NBSP and spaces, turn commas into dots, then drop every character
outside `[0-9.\-]`. -/
def cleanAmount (s : List Char) : List Char :=
  ((s.filter (fun c => !(c == ' ' || c == ' '))).map
      (fun c => if c == ',' then '.' else c)).filter
    (fun c => c.isDigit || c == '.' || c == '-')

/-- One cell of `pd.to_numeric(..., errors="coerce").fillna(0.0)` applied
after `cleanAmount`. -/
def parseAmountCell (s : List Char) : ℚ :=
  (parseSignedFloat (cleanAmount s)).getD 0

/-! ## Claim C4 -/

/-- C4 counterexample: the junk filter deliberately keeps `-`, so the raw
string "-5" normalizes to the negative float -5.0, refuting the claimed
non-negativity. -/
theorem c4_negative_amount_counterexample :
    parseAmountCell ("-5".data) = -5 ∧ parseAmountCell ("-5".data) < 0 := by
  decide

lemma cleanAmount_mem (s : List Char) (c : Char) (hc : c ∈ cleanAmount s) :
    (c.isDigit || c == '.' || c == '-') = true :=
  (List.mem_filter.mp hc).2

lemma minus_not_in_cleanAmount (s : List Char) (hs : '-' ∉ s) : '-' ∉ cleanAmount s := by
  intro hmem
  obtain ⟨h1, -⟩ := List.mem_filter.mp hmem
  obtain ⟨a, ha, heq⟩ := List.mem_map.mp h1
  by_cases hc : a == ','
  · rw [if_pos hc] at heq
    exact absurd heq (by decide)
  · rw [if_neg hc] at heq
    exact hs (heq ▸ (List.mem_filter.mp ha).1)

lemma parseUnsigned_nonneg (s : List Char) (q : ℚ) (h : parseUnsigned s = some q) :
    0 ≤ q := by
  unfold parseUnsigned at h
  split at h
  · split at h
    · obtain rfl := Option.some.inj h
      exact Nat.cast_nonneg _
    · exact absurd h (by simp)
  · split at h
    · obtain rfl := Option.some.inj h
      exact add_nonneg (Nat.cast_nonneg _)
        (div_nonneg (Nat.cast_nonneg _) (pow_nonneg (by norm_num) _))
    · exact absurd h (by simp)
  · exact absurd h (by simp)

lemma parseSignedFloat_no_minus (s : List Char) (hs : '-' ∉ s) :
    parseSignedFloat s = parseUnsigned s := by
  cases s with
  | nil => rfl
  | cons c rest =>
    have hc : ¬ ((c == '-') = true) := fun h =>
      hs (by rw [show c = '-' from by simpa using h]; exact List.mem_cons_self '-' rest)
    show (if (c == '-') = true then (parseUnsigned rest).map Neg.neg
        else parseUnsigned (c :: rest)) = parseUnsigned (c :: rest)
    rw [if_neg hc]

/-- C4 (amended): the per-cell amount normalizer strips NBSP, spaces and
commas (commas become dots), keeps only `[0-9.\-]`, and totally yields a
float with parse failures becoming exactly 0.0; the result is non-negative
whenever the raw string contains no minus sign — a surviving `-` can make
it negative, so unconditional non-negativity does not hold. -/
theorem c4_amount_normalizer_amended :
    (∀ s : List Char,
        (∀ c ∈ cleanAmount s, c.isDigit = true ∨ c = '.' ∨ c = '-') ∧
          ' ' ∉ cleanAmount s ∧ ' ' ∉ cleanAmount s ∧ ',' ∉ cleanAmount s ∧
          (parseSignedFloat (cleanAmount s) = none → parseAmountCell s = 0)) ∧
      ∀ s : List Char, '-' ∉ s → 0 ≤ parseAmountCell s := by
  constructor
  · intro s
    refine ⟨?_, ?_, ?_, ?_, ?_⟩
    · intro c hc
      have h := cleanAmount_mem s c hc
      simp only [Bool.or_eq_true, beq_iff_eq] at h
      tauto
    · intro h
      exact absurd (cleanAmount_mem s _ h) (by decide)
    · intro h
      exact absurd (cleanAmount_mem s _ h) (by decide)
    · intro h
      exact absurd (cleanAmount_mem s _ h) (by decide)
    · intro h
      unfold parseAmountCell
      rw [h]
      rfl
  · intro s hs
    unfold parseAmountCell
    rw [parseSignedFloat_no_minus _ (minus_not_in_cleanAmount s hs)]
    cases hq : parseUnsigned (cleanAmount s) with
    | none => exact le_refl 0
    | some q => exact parseUnsigned_nonneg _ _ hq

/-- Witness for C4 on a raw amount with NBSP, space and decimal comma. -/
theorem c4_amount_normalizer_witness :
    '-' ∉ ("1 2 34,56 ₸".data) ∧ 0 ≤ parseAmountCell ("1 2 34,56 ₸".data) :=
  ⟨by decide, c4_amount_normalizer_amended.2 _ (by decide)⟩

/-! ## Date parsing (utils.py `_parse_dates_series`, build_data.py
`_to_datetime_safe`)

The underlying cell parser (`pd.to_datetime` with and without
`dayfirst=True`) is an external library call, modelled as an oracle pair;
the repository's own logic is the column-level retry policy, plus the
concrete pattern heuristic `\b\d{1,2}[.]\d{1,2}[.]\d{2,4}\b`, which both
files share verbatim. -/

structure DateOracle where
  free : List Char → Option Int
  dayfirst : List Char → Option Int

/-- Group-structure test for the `D[D].M[M].YYYY[YY]` pattern at the head
of `s` with digit-group lengths `a`, `b`, `c`. -/
def dmyHere (s : List Char) (a b c : Nat) : Bool :=
  decide (a + b + c + 2 ≤ s.length) &&
    allDigits (s.take a) &&
    (s.getD a ' ' == '.') &&
    allDigits ((s.drop (a + 1)).take b) &&
    (s.getD (a + 1 + b) ' ' == '.') &&
    allDigits ((s.drop (a + b + 2)).take c) &&
    (match s.drop (a + b + 2 + c) with
     | [] => true
     | ch :: _ => !(isWordChar ch))

/-- `s.str.contains(r"\b\d{1,2}[.]\d{1,2}[.]\d{2,4}\b")` for one cell:
regex backtracking is existential choice of the three group lengths. -/
def containsDmy (s : List Char) : Bool :=
  (List.range (s.length + 1)).any fun i =>
    (decide (i = 0) || !(isWordChar (s.getD (i - 1) ' '))) &&
      ([1, 2].any fun a => [1, 2].any fun b => [2, 3, 4].any fun c =>
        dmyHere (s.drop i) a b c)

def countNone (l : List (Option Int)) : Nat :=
  (l.filter (fun x => x.isNone)).length

/-- `_parse_dates_series` from utils.py: choose day-first for the whole
column iff the column is non-empty (the boolean mean of an empty column is
NaN, which fails the comparison) and at least half the raw cells match the
`D.M.Y` pattern; it never attempts the unconstrained parse first. -/
def parse_dates_series (o : DateOracle) (col : List (List Char)) : List (Option Int) :=
  if 0 < col.length ∧ col.length ≤ 2 * (col.filter containsDmy).length then
    col.map o.dayfirst
  else col.map o.free

/-- `_to_datetime_safe` from build_data.py: parse unconstrained first,
retry the whole column with day-first iff strictly more than half the
parses failed and strictly more than 30 percent of the raw cells match the
`D.M.Y` pattern. -/
def to_datetime_safe (o : DateOracle) (col : List (List Char)) : List (Option Int) :=
  let first := col.map o.free
  if col.length < 2 * countNone first ∧
      3 * col.length < 10 * (col.filter containsDmy).length then
    col.map o.dayfirst
  else first

/-! ## Claim C5 -/

/-- An oracle recording the actual pandas behaviour on the cell
"01.02.2024": the unconstrained parse succeeds month-first (2024-01-02,
encoded yyyymmdd) and the day-first parse yields 2024-02-01, so the
claimed procedure (attempt free parse, retry only on majority failure)
would keep the free result. -/
def demoOracle : DateOracle :=
  ⟨fun _ => some 20240102, fun _ => some 20240201⟩

/-- An oracle for a column whose unconstrained parse fails everywhere and
whose day-first parse succeeds. -/
def failOracle : DateOracle :=
  ⟨fun _ => none, fun _ => some 20240201⟩

/-- C5 counterexample: on the column ["01.02.2024"] the unconstrained
parse succeeds on every cell, so the claimed procedure performs no
day-first retry; `_parse_dates_series` (the parser used by `read_data`)
nevertheless parses the whole column day-first, because its only test is
the 50-percent pattern share. -/
theorem c5_utils_parser_counterexample :
    parse_dates_series demoOracle ["01.02.2024".data] = [some 20240201] ∧
      to_datetime_safe demoOracle ["01.02.2024".data] = [some 20240102] ∧
      parse_dates_series demoOracle ["01.02.2024".data] ≠
        to_datetime_safe demoOracle ["01.02.2024".data] := by
  decide

/-- C5 (amended): `_to_datetime_safe` (batch ingestion) follows the claimed
procedure exactly — it retries the whole column day-first iff more than
half the unconstrained parses failed and more than 30 percent of raw cells
match `D[D].M[M].YYYY[YY]`, else keeps the first attempt; the single-path
parser `_parse_dates_series` instead goes day-first directly iff the
non-empty column has at least a 50-percent pattern share, never attempting
the unconstrained parse first.  Failed cells are the null sentinel (`none`)
in either branch; no exception is raised. -/
theorem c5_date_retry_amended :
    (∀ (o : DateOracle) (col : List (List Char)),
        ((col.length < 2 * countNone (col.map o.free) ∧
            3 * col.length < 10 * (col.filter containsDmy).length) →
          to_datetime_safe o col = col.map o.dayfirst) ∧
        (¬ (col.length < 2 * countNone (col.map o.free) ∧
            3 * col.length < 10 * (col.filter containsDmy).length) →
          to_datetime_safe o col = col.map o.free)) ∧
      ∀ (o : DateOracle) (col : List (List Char)),
        ((0 < col.length ∧ col.length ≤ 2 * (col.filter containsDmy).length) →
          parse_dates_series o col = col.map o.dayfirst) ∧
        (¬ (0 < col.length ∧ col.length ≤ 2 * (col.filter containsDmy).length) →
          parse_dates_series o col = col.map o.free) := by
  constructor
  · intro o col
    constructor
    · intro h
      unfold to_datetime_safe
      rw [if_pos h]
    · intro h
      unfold to_datetime_safe
      rw [if_neg h]
  · intro o col
    constructor
    · intro h
      unfold parse_dates_series
      rw [if_pos h]
    · intro h
      unfold parse_dates_series
      rw [if_neg h]

/-- Witness for C5: both branches at concrete columns — the free parse is
kept when it succeeds everywhere, and the day-first retry fires on a
100-percent-failure, 100-percent-pattern column. -/
theorem c5_date_retry_witness :
    to_datetime_safe demoOracle ["03.04.2024".data] = [some 20240102] ∧
      to_datetime_safe failOracle ["01.02.2024".data] = [some 20240201] :=
  ⟨(c5_date_retry_amended.1 demoOracle _).2 (by decide),
    (c5_date_retry_amended.1 failOracle _).1 (by decide)⟩

/-! ## Identifier parsing and row dropping (utils.py `read_data`,
build_data.py `main`) -/

/-- One cell of `pd.to_numeric(..., errors="coerce").astype("Int64")`:
numeric strings with an integral value become that integer, everything
else the nullable sentinel.  (A non-integral numeric would make the real
`astype` raise; such values do not occur in identifier columns and are
modelled as null.) -/
def castClientCode (s : List Char) : Option Int :=
  match parseSignedFloat (pyStrip s) with
  | some q => if q.den = 1 then some q.num else none
  | none => none

/-- A raw table row: an opaque payload plus the raw client-identifier
cell. -/
structure RawIdRow (α : Type) where
  payload : α
  clientRaw : List Char
deriving DecidableEq

/-- The identifier treatment of build_data.py `main`: cast the id column,
then `dropna(subset=["client_code"])`. -/
def buildDataIdNormalize {α : Type} (rows : List (RawIdRow α)) : List (α × Option Int) :=
  (rows.map (fun r => (r.payload, castClientCode r.clientRaw))).filter
    (fun p => p.2.isSome)

/-- The identifier treatment of utils.py `read_data`: cast the id column
to nullable integers; no row is dropped. -/
def readDataIdNormalize {α : Type} (rows : List (RawIdRow α)) : List (α × Option Int) :=
  rows.map (fun r => (r.payload, castClientCode r.clientRaw))

/-! ## Claim C9 -/

/-- C9 counterexample: `read_data` (the canonical in-memory ingestion path)
keeps the row whose identifier "abc" fails to parse — the canonical table
contains a row with a null client code, refuting the claim that every such
row is dropped. -/
theorem c9_read_data_keeps_null_id :
    readDataIdNormalize [⟨(0 : Nat), "abc".data⟩] = [((0 : Nat), none)] ∧
      (readDataIdNormalize [⟨(0 : Nat), "abc".data⟩]).length = 1 := by
  decide

/-- C9 (amended): only the batch merger build_data.py drops rows with
unparseable identifiers — every row it keeps has a non-null integer client
code, and it equals `read_data`'s coercion followed by the drop; `read_data`
itself only coerces, keeping every row (nulls included). -/
theorem c9_ingestion_ids_amended :
    (∀ (rows : List (RawIdRow Nat)) (p : Nat × Option Int),
        p ∈ buildDataIdNormalize rows → p.2.isSome = true) ∧
      (∀ rows : List (RawIdRow Nat),
        buildDataIdNormalize rows = (readDataIdNormalize rows).filter (fun p => p.2.isSome)) ∧
      ∀ rows : List (RawIdRow Nat), (readDataIdNormalize rows).length = rows.length := by
  refine ⟨?_, fun rows => rfl, fun rows => List.length_map _ _⟩
  intro rows p hp
  exact (List.mem_filter.mp hp).2

/-- Witness for C9 on a mixed table: the good row survives with its
integer id. -/
theorem c9_ingestion_ids_witness :
    ((7 : Nat), some (42 : Int)).2.isSome = true :=
  c9_ingestion_ids_amended.1 [⟨7, "42".data⟩, ⟨8, "x".data⟩] (7, some 42) (by decide)

/-! ## Anti-spam gate (utils.py `can_send` and the `_last_sent` map)

The process-wide mutable dict is modelled as an explicit state (a map from
client code to the last permitted send's timestamp, CTA and product);
`time.time()` is an explicit per-call wall-clock argument.  A call sequence
is a list of calls folded through the step function. -/

/-- One invocation of `can_send`. -/
structure SendCall where
  client : ℤ
  cta : List Char
  product : List Char
  now : ℚ
  minHours : ℚ

/-- The `_last_sent` map. -/
def SendState : Type := ℤ → Option (ℚ × List Char × List Char)

/-- `cta.strip().lower()` — the comparison key for the repeat-CTA check. -/
def normCta (s : List Char) : List Char :=
  lowerList (pyStrip s)

def updateSend (st : SendState) (k : ℤ) (v : ℚ × List Char × List Char) : SendState :=
  fun k2 => if k2 = k then some v else st k2

/-- `can_send(client_code, cta, product, min_hours)` at wall-clock `c.now`:
returns the boolean outcome and the successor state. -/
def canSendStep (st : SendState) (c : SendCall) : Bool × SendState :=
  match st c.client with
  | none => (true, updateSend st c.client (c.now, c.cta, c.product))
  | some last =>
    if c.now - last.1 < c.minHours * 3600 then (false, st)
    else if normCta c.cta = normCta last.2.1 then (false, st)
    else (true, updateSend st c.client (c.now, c.cta, c.product))

/-- Fold a call sequence through the gate, keeping only the final state. -/
def runSend (st : SendState) : List SendCall → SendState
  | [] => st
  | c :: cs => runSend (canSendStep st c).2 cs

/-- Every call for client `cl` in the sequence is denied (evaluated along
the run from `st`). -/
def allDeniedFor (cl : ℤ) : SendState → List SendCall → Prop
  | _, [] => True
  | st, c :: cs =>
    (c.client = cl → (canSendStep st c).1 = false) ∧
      allDeniedFor cl (canSendStep st c).2 cs

lemma canSendStep_denied_state (st : SendState) (c : SendCall)
    (h : (canSendStep st c).1 = false) : (canSendStep st c).2 = st := by
  cases hst : st c.client with
  | none => simp [canSendStep, hst] at h
  | some last =>
    simp only [canSendStep, hst] at h ⊢
    split_ifs at h ⊢ with h1 h2
    all_goals rfl

lemma canSendStep_other (st : SendState) (c : SendCall) (cl : ℤ)
    (h : c.client ≠ cl) : (canSendStep st c).2 cl = st cl := by
  cases hst : st c.client with
  | none => simp [canSendStep, hst, updateSend, Ne.symm h]
  | some last =>
    simp only [canSendStep, hst]
    split_ifs
    · rfl
    · rfl
    · simp [updateSend, Ne.symm h]

lemma canSendStep_granted_state (st : SendState) (c : SendCall)
    (h : (canSendStep st c).1 = true) :
    (canSendStep st c).2 c.client = some (c.now, c.cta, c.product) := by
  cases hst : st c.client with
  | none => simp [canSendStep, hst, updateSend]
  | some last =>
    simp only [canSendStep, hst] at h ⊢
    split_ifs at h ⊢ with h1 h2
    all_goals simp [updateSend]

lemma canSendStep_cooldown_denied (st : SendState) (c : SendCall)
    (v : ℚ × List Char × List Char) (hv : st c.client = some v)
    (hw : c.now - v.1 < c.minHours * 3600) : (canSendStep st c).1 = false := by
  simp [canSendStep, hv, hw]

lemma canSendStep_cta_denied (st : SendState) (c : SendCall)
    (v : ℚ × List Char × List Char) (hv : st c.client = some v)
    (hcta : normCta c.cta = normCta v.2.1) : (canSendStep st c).1 = false := by
  simp only [canSendStep, hv]
  split_ifs
  all_goals rfl

lemma runSend_preserves (cl : ℤ) :
    ∀ (mid : List SendCall) (st : SendState), allDeniedFor cl st mid →
      runSend st mid cl = st cl
  | [], _, _ => rfl
  | c :: cs, st, h => by
    rw [show runSend st (c :: cs) = runSend (canSendStep st c).2 cs from rfl,
      runSend_preserves cl cs (canSendStep st c).2 h.2]
    by_cases hc : c.client = cl
    · rw [canSendStep_denied_state st c (h.1 hc)]
    · exact canSendStep_other st c cl hc

lemma runSend_ts_lower (cl : ℤ) (t0 : ℚ) :
    ∀ (mid : List SendCall) (st : SendState),
      (∀ m ∈ mid, t0 ≤ m.now) →
      (∃ v, st cl = some v ∧ t0 ≤ v.1) →
      ∃ v, runSend st mid cl = some v ∧ t0 ≤ v.1
  | [], _, _, hst => hst
  | c :: cs, st, hmid, hst => by
    refine runSend_ts_lower cl t0 cs (canSendStep st c).2
      (fun m hm => hmid m (List.mem_cons_of_mem c hm)) ?_
    by_cases hc : c.client = cl
    · by_cases hb : (canSendStep st c).1 = true
      · refine ⟨(c.now, c.cta, c.product), ?_, hmid c (List.mem_cons_self c cs)⟩
        rw [← hc]
        exact canSendStep_granted_state st c hb
      · rw [canSendStep_denied_state st c (by simpa using hb)]
        exact hst
    · rw [canSendStep_other st c cl hc]
      exact hst

/-! ## Claim C10 -/

/-- C10: the anti-spam gate never permits two sends too close together or
with a repeated CTA.  If a call `ci` for a client is granted, then (a) under
monotone wall-clock times, any later call `cj` for the same client whose
time is within `cj.minHours` hours of `ci` is denied, and (b) if no call
for that client was granted in between, a later call whose CTA equals the
granted call's CTA case-insensitively after trimming is denied even after
the cooldown has elapsed. -/
theorem c10_can_send_rate_limit (s0 : SendState) (pre mid : List SendCall)
    (ci cj : SendCall) (hc : cj.client = ci.client)
    (hi : (canSendStep (runSend s0 pre) ci).1 = true) :
    ((∀ m ∈ mid, ci.now ≤ m.now) → cj.now - ci.now < cj.minHours * 3600 →
        (canSendStep (runSend (canSendStep (runSend s0 pre) ci).2 mid) cj).1 = false) ∧
      (allDeniedFor ci.client (canSendStep (runSend s0 pre) ci).2 mid →
        normCta cj.cta = normCta ci.cta →
        (canSendStep (runSend (canSendStep (runSend s0 pre) ci).2 mid) cj).1 = false) := by
  have hupd : (canSendStep (runSend s0 pre) ci).2 ci.client =
      some (ci.now, ci.cta, ci.product) :=
    canSendStep_granted_state _ _ hi
  constructor
  · intro hmono hwin
    obtain ⟨v, hv, hts⟩ := runSend_ts_lower ci.client ci.now mid
      (canSendStep (runSend s0 pre) ci).2 hmono
      ⟨(ci.now, ci.cta, ci.product), hupd, le_refl _⟩
    exact canSendStep_cooldown_denied _ cj v (by rw [hc]; exact hv) (by linarith)
  · intro hden hcta
    have hstate : runSend (canSendStep (runSend s0 pre) ci).2 mid cj.client =
        some (ci.now, ci.cta, ci.product) := by
      rw [hc, runSend_preserves ci.client mid _ hden, hupd]
    exact canSendStep_cta_denied _ cj _ hstate hcta

/-- Witness for C10: a fresh client is granted at time 0; a call one second
later is denied by the cooldown, and a call far beyond the cooldown
repeating the same CTA (differently cased, with extra spaces) is denied by
the repeat-CTA check. -/
theorem c10_can_send_rate_limit_witness :
    (canSendStep (runSend (canSendStep (runSend (fun _ => none) [])
        ⟨1, "Оформить карту".data, "p".data, 0, 48⟩).2 [])
      ⟨1, "другой".data, "q".data, 1, 48⟩).1 = false ∧
    (canSendStep (runSend (canSendStep (runSend (fun _ => none) [])
        ⟨1, "Оформить карту".data, "p".data, 0, 48⟩).2 [])
      ⟨1, " ОФОРМИТЬ КАРТУ ".data, "q".data, 10000000, 48⟩).1 = false := by
  constructor
  · exact (c10_can_send_rate_limit (fun _ => none) [] []
      ⟨1, "Оформить карту".data, "p".data, 0, 48⟩
      ⟨1, "другой".data, "q".data, 1, 48⟩ rfl rfl).1 (by simp) (by norm_num)
  · exact (c10_can_send_rate_limit (fun _ => none) [] []
      ⟨1, "Оформить карту".data, "p".data, 0, 48⟩
      ⟨1, " ОФОРМИТЬ КАРТУ ".data, "q".data, 10000000, 48⟩ rfl rfl).2 trivial (by decide)

/-! ## Deterministic phrase choice (pushgen_llm.py)

`_seeded_choice` hashes the seed with MD5 and indexes the pool modulo its
size.  The digest is modelled by a fixed deterministic integer hash; per
the code's own design contract the only property relied upon is that equal
seeds give equal indices, and every theorem below about the chosen phrase
quantifies over all pool elements, so no claim depends on which index the
real digest selects. -/

/-- Stand-in for `int(hashlib.md5(seed.encode()).hexdigest(), 16)`. -/
def seedHash (s : List Char) : Nat :=
  s.foldl (fun a c => (a * 131 + c.toNat) % 1000000007) 7

/-- `_seeded_choice(seed, options) = options[h % len(options)]`
(empty pool yields the empty string). -/
def seededChoice (seed : List Char) (options : List (List Char)) : List Char :=
  if h : 0 < options.length then
    options.get ⟨seedHash seed % options.length, Nat.mod_lt _ h⟩
  else []

/-- The per-product CTA pools of `_cta_for_product_var` (with the default
pool for unknown products). -/
def ctaPool (product : List Char) : List (List Char) :=
  if product = "Карта для путешествий".data then
    ["Оформить карту".data, "Оформить сейчас".data]
  else if product = "Премиальная карта".data then
    ["Оформить сейчас".data, "Подключить карту".data]
  else if product = "Кредитная карта".data then
    ["Оформить карту".data, "Подключить карту".data]
  else if product = "Обмен валют".data then
    ["Настроить обмен".data, "Посмотреть курс".data]
  else if product = "FX".data then
    ["Настроить обмен".data, "Посмотреть курс".data]
  else if product = "Инвестиции".data then
    ["Открыть счёт".data, "Посмотреть условия".data]
  else if product = "Кредит наличными".data then
    ["Узнать лимит".data, "Посмотреть условия".data]
  else if product = "Золотые слитки".data then
    ["Посмотреть условия".data, "Открыть в приложении".data]
  else ["Оформить сейчас".data, "Посмотреть".data, "Подключить".data]

/-- `_cta_for_product_var(product, key)`. -/
def _cta_for_product_var (product key : List Char) : List Char :=
  seededChoice (key ++ "|cta|".data ++ product) (ctaPool product)

/-- `_norm_status` from pushgen_llm.py (a `None` status is not a string). -/
def _norm_status (raw : Option (List Char)) : List Char :=
  match raw with
  | none => "Стандартный клиент".data
  | some r =>
    let s := lowerList (pyStrip r)
    if hasSub "студент".data s then "Студент".data
    else if hasSub "зарплат".data s then "Зарплатный клиент".data
    else if hasSub "преми".data s then "Премиальный клиент".data
    else "Стандартный клиент".data

/-- `_month_hint` from pushgen_llm.py. -/
def _month_hint (month : List Char) : List Char :=
  if pyStrip month ≠ [] then pyStrip month else "этом месяце".data

/-- `name_part` of `_tone_preamble`. -/
def namePartOf (name : List Char) : List Char :=
  if name ≠ [] then name ++ ",".data else "Здравствуйте,".data

/-- `city_hint` of `_tone_preamble`. -/
def cityHintOf (city : Option (List Char)) : List Char :=
  match city with
  | some c => if pyStrip c ≠ [] then " в ".data ++ pyStrip c else []
  | none => []

/-- `_tone_preamble` from pushgen_llm.py (the `age` argument is accepted
and unused, as in the source). -/
def _tone_preamble (name : List Char) (status : Option (List Char))
    (age : Option ℤ) (city : Option (List Char)) : List Char :=
  if _norm_status status = "Студент".data then
    namePartOf name ++ " если часто".data ++ cityHintOf city ++
      " пользуетесь сервисами и такси — есть выгоднее.".data
  else if _norm_status status = "Премиальный клиент".data then
    namePartOf name ++ " с вашим профилем можно оптимизировать расходы и сервис.".data
  else if _norm_status status = "Зарплатный клиент".data then
    namePartOf name ++ " давайте сделаем повседневные платежи удобнее.".data
  else namePartOf name ++ " смотрим на последние траты и подбираем лучший продукт.".data

/-- The duck-typed `ctx` bag: every key the generator reads, `none`
standing for an absent key. -/
structure PushCtx where
  benefit_num : Option ℚ
  benefit : Option (List Char)
  travel_sum : Option (List Char)
  premium_sum : Option (List Char)
  online_sum : Option (List Char)
  top3_names : Option (List Char)
  fav : Option (List Char)
  atm_cnt : Option ℤ
  transfer_cnt : Option ℤ

/-- Python truthiness of an optional string. -/
def truthyS : Option (List Char) → Bool
  | some s => !s.isEmpty
  | none => false

/-- Python truthiness of an optional integer. -/
def truthyI : Option ℤ → Bool
  | some n => decide (n ≠ 0)
  | none => false

/-- Decimal digits of a natural number (`str(n)`). -/
def natToChars (n : Nat) : List Char :=
  if n < 10 then [Char.ofNat (48 + n)]
  else natToChars (n / 10) ++ [Char.ofNat (48 + n % 10)]
termination_by n
decreasing_by exact Nat.div_lt_self (by omega) (by omega)

/-- `str(n)` for an integer. -/
def intToChars (n : ℤ) : List Char :=
  if n < 0 then '-' :: natToChars (-n).toNat else natToChars n.toNat

/-- The f-string rendering of `ctx.get("atm_cnt")` (an int or `None`). -/
def showOptInt : Option ℤ → List Char
  | some n => intToChars n
  | none => "None".data

/-- Python `sep.join(parts)`. -/
def joinWith (sep : List Char) : List (List Char) → List Char
  | [] => []
  | [x] => x
  | x :: y :: rest => x ++ sep ++ joinWith sep (y :: rest)

/-- The qualitative candidate pools of `_benefit_phrase` (used when the
estimated benefit is not positive). -/
def benefitCandidates (product : List Char) : List (List Char) :=
  if product = "Карта для путешествий".data then
    ["Часть расходов на поездки вернулась бы кешбэком.".data,
     "По поездкам и такси можно получать возврат.".data]
  else if product = "Премиальная карта".data then
    ["Базовый кешбэк и повышенный — на рестораны/косметику.".data,
     "Повышенный кешбэк и экономия на комиссиях.".data]
  else if product = "Кредитная карта".data then
    ["До 10% в любимых категориях и на онлайн-сервисы.".data,
     "Кешбэк до 10% по частым тратам.".data]
  else if product = "Обмен валют".data then
    ["Выгодный курс и автопокупка по цели.".data,
     "Можно настроить автопокупку по целевому курсу.".data]
  else
    ["Это поможет экономить и упростит платежи.".data,
     "Подойдёт по вашему профилю расходов.".data]

/-- The factual appendix list `extra` of `_benefit_phrase`. -/
def benefitExtras (product : List Char) (ctx : PushCtx) : List (List Char) :=
  (if product = "Карта для путешествий".data && truthyS ctx.travel_sum then
    ["Поездки: ".data ++ (ctx.travel_sum).getD []] else []) ++
  (if product = "Премиальная карта".data && truthyS ctx.premium_sum then
    ["Рестораны/косметика: ".data ++ (ctx.premium_sum).getD []] else []) ++
  (if product = "Кредитная карта".data && truthyS ctx.online_sum then
    ["Онлайн-сервисы: ".data ++ (ctx.online_sum).getD []] else []) ++
  (if product = "Премиальная карта".data &&
      (truthyI ctx.atm_cnt || truthyI ctx.transfer_cnt) then
    ["Снятия/переводы: ".data ++ showOptInt ctx.atm_cnt ++ "/".data ++
      showOptInt ctx.transfer_cnt] else [])

/-- The `tail` of the qualitative branch of `_benefit_phrase`. -/
def benefitTail (product : List Char) (ctx : PushCtx) : List Char :=
  if benefitExtras product ctx ≠ [] then
    ". ".data ++ joinWith "; ".data (benefitExtras product ctx)
  else []

/-- The quantitative phrase pool of `_benefit_phrase`. -/
def benefitCoreOptions (mon bTxt : List Char) : List (List Char) :=
  ["В ".data ++ mon ++ " ориентировочная выгода ~".data ++ bTxt ++ ".".data,
   "По вашему профилю в ".data ++ mon ++ " вернулось бы около ".data ++ bTxt ++ ".".data,
   "В ".data ++ mon ++ " можно было бы сэкономить примерно ".data ++ bTxt ++ ".".data,
   "Оценка выгоды за ".data ++ mon ++ ": около ".data ++ bTxt ++ ".".data]

/-- The `fav` string of `_benefit_phrase` (`top3_names or fav or ""`). -/
def benefitFav (ctx : PushCtx) : List Char :=
  if truthyS ctx.top3_names then (ctx.top3_names).getD [] else (ctx.fav).getD []

/-- The `reason_parts` list of `_benefit_phrase`. -/
def benefitReasonParts (product : List Char) (ctx : PushCtx) : List (List Char) :=
  (if product = "Карта для путешествий".data && truthyS ctx.travel_sum then
    ["за счёт поездок (".data ++ (ctx.travel_sum).getD [] ++ ")".data] else []) ++
  (if product = "Премиальная карта".data && truthyS ctx.premium_sum then
    ["за счёт премиальных категорий (".data ++ (ctx.premium_sum).getD [] ++ ")".data] else []) ++
  (if product = "Кредитная карта".data &&
      (!(benefitFav ctx).isEmpty || truthyS ctx.online_sum) then
    ["за счёт любимых категорий и онлайн-сервисов".data] else []) ++
  (if product = "Премиальная карта".data &&
      (truthyI ctx.atm_cnt || truthyI ctx.transfer_cnt) then
    ["и снижения комиссий".data] else [])

/-- The second `|why` pool entry of `_benefit_phrase`. -/
def benefitReasonOpt (product : List Char) (ctx : PushCtx) : List Char :=
  if benefitReasonParts product ctx = [] then []
  else pyStrip (joinWith " ".data (benefitReasonParts product ctx) ++ ".".data)

/-- `_benefit_phrase` from pushgen_llm.py. -/
def _benefit_phrase (product mon : List Char) (ctx : PushCtx) (key : List Char) :
    List Char :=
  if (ctx.benefit_num).getD 0 ≤ 0 then
    seededChoice (key ++ "|bf0".data) (benefitCandidates product) ++ benefitTail product ctx
  else
    seededChoice (key ++ "|bf".data)
        (benefitCoreOptions mon ((ctx.benefit).getD "0 ₸".data)) ++
      " ".data ++
      seededChoice (key ++ "|why".data) [[], benefitReasonOpt product ctx]

/-- The demographics bag (`demo`). -/
structure Demo where
  status : Option (List Char)
  age : Option ℤ
  city : Option (List Char)

/-- The product-specific lead sentence of `generate_personalized_push`. -/
def pushLead (product mon : List Char) (ctx : PushCtx) (city : Option (List Char)) :
    List Char :=
  if product = "Карта для путешествий".data then
    "В ".data ++ mon ++ " заметные траты на поездки и такси (".data ++
      ((ctx.travel_sum).getD "0 ₸".data) ++ "). ".data
  else if product = "Премиальная карта".data then
    "С вашим остатком и тратами в ресторанах/косметике (".data ++
      ((ctx.premium_sum).getD "0 ₸".data) ++ ") выгода выше. ".data
  else if product = "Кредитная карта".data then
    "Ваши топ-категории — ".data ++
      (if truthyS ctx.top3_names then (ctx.top3_names).getD []
        else (ctx.fav).getD "-".data) ++
      "; онлайн-сервисы на ".data ++ ((ctx.online_sum).getD "0 ₸".data) ++ ". ".data
  else if product = "Обмен валют".data || product = "FX".data then
    "Нужен удобный курс".data ++
      (if truthyS city then " для поездок в ".data ++ (city.getD []) else []) ++
      "? Настройте автопокупку. ".data
  else if beginsWith "Депозит сбер".data product then
    "Если средства лежат без снятий — сберегательный вклад даст максимум. ".data
  else if beginsWith "Депозит накоп".data product then
    "Регулярно пополняете — копите на цели без снятий. ".data
  else if beginsWith "Депозит мульти".data product then
    "Храните тенге и валюту вместе с начислением. ".data
  else if product = "Инвестиции".data then
    "Низкий порог входа и сниженные комиссии для аккуратного старта. ".data
  else if product = "Кредит наличными".data then
    "Нужна подушка на крупные траты — оформите кредит и настройте выплаты. ".data
  else if product = "Золотые слитки".data then
    "Физическое золото для диверсификации и сохранения стоимости. ".data
  else "Подбираем вариант с наибольшей пользой для вашего профиля. ".data

/-- `generate_personalized_push` from pushgen_llm.py. -/
def generate_personalized_push (product name month : List Char) (ctx : PushCtx)
    (demo : Option Demo) (max_len : Option ℤ) : List Char :=
  let d := demo.getD ⟨none, none, none⟩
  let pre := _tone_preamble name d.status d.age d.city
  let mon := _month_hint month
  let key := name ++ "|".data ++ product ++ "|".data ++ mon ++ "|".data ++
    (d.status.getD []) ++ "|".data ++ (d.city.getD [])
  let cta := _cta_for_product_var product key
  let lead := pushLead product mon ctx d.city
  let benefit := _benefit_phrase product mon ctx key
  let msg := pre ++ " ".data ++ lead ++ benefit ++ " ".data ++ cta ++ ".".data
  let limit : Nat :=
    match max_len with
    | some m => if 0 < m then m.toNat else MAX_LEN
    | none => MAX_LEN
  smartClamp msg limit

/-- `ensure_cta` from pushgen_llm.py. -/
def ensure_cta (product text key : List Char) : List Char :=
  if pyStrip text = [] then text
  else if ctaSearch text then text
  else
    let cta := _cta_for_product_var product (if key ≠ [] then key else product)
    let cleaned := rstripWs (rstripDotBangQm (rstripWs text))
    cleaned ++ ". ".data ++ cta ++ ".".data

/-! ## Claim C3 -/

lemma ctaSearchAux_append_of_suffix (a b : List Char)
    (hb : ∀ p : Option Char, ctaSearchAux p b = true) :
    ∀ p, ctaSearchAux p (a ++ b) = true := by
  induction a with
  | nil => exact hb
  | cons c cs ih =>
    intro p
    show ((prevOkB p && ctaHere (c :: (cs ++ b))) || ctaSearchAux (some c) (cs ++ b)) = true
    rw [ih (some c), Bool.or_true]

lemma cta_tail_search (o : List Char)
    (ho : ctaSearchAux (some '.') (' ' :: (o ++ ".".data)) = true) :
    ∀ p, ctaSearchAux p ('.' :: ' ' :: (o ++ ".".data)) = true := by
  intro p
  show ((prevOkB p && ctaHere ('.' :: ' ' :: (o ++ ".".data))) ||
    ctaSearchAux (some '.') (' ' :: (o ++ ".".data))) = true
  rw [ho, Bool.or_true]

/-- Every string that can come out of a CTA pool (all eight product pools
plus the default pool). -/
def allCtaOptions : List (List Char) :=
  ["Оформить карту".data, "Оформить сейчас".data, "Подключить карту".data,
   "Настроить обмен".data, "Посмотреть курс".data, "Открыть счёт".data,
   "Посмотреть условия".data, "Узнать лимит".data, "Открыть в приложении".data,
   "Посмотреть".data, "Подключить".data]

lemma allCtaOptions_tail_search :
    ∀ o ∈ allCtaOptions, ctaSearchAux (some '.') (' ' :: (o ++ ".".data)) = true := by
  decide

lemma ctaPool_subset (product : List Char) :
    ∀ o ∈ ctaPool product, o ∈ allCtaOptions := by
  unfold ctaPool
  split_ifs <;> decide

lemma ctaPool_ne_nil (product : List Char) : ctaPool product ≠ [] := by
  unfold ctaPool
  split_ifs <;> decide

lemma seededChoice_mem (seed : List Char) (opts : List (List Char)) (h : opts ≠ []) :
    seededChoice seed opts ∈ opts := by
  unfold seededChoice
  rw [dif_pos (List.length_pos.mpr h)]
  exact List.get_mem _ _ _

lemma ensure_cta_of_blank (product t key : List Char) (h : pyStrip t = []) :
    ensure_cta product t key = t := by
  unfold ensure_cta
  rw [if_pos h]

lemma ensure_cta_of_found (product t key : List Char) (h : ctaSearch t = true) :
    ensure_cta product t key = t := by
  unfold ensure_cta
  by_cases h2 : pyStrip t = []
  · rw [if_pos h2]
  · rw [if_neg h2, if_pos h]

lemma cta_var_tail_search (cleaned product key : List Char) :
    ctaSearch (cleaned ++ ". ".data ++ _cta_for_product_var product key ++ ".".data) = true := by
  have hmem : _cta_for_product_var product key ∈ ctaPool product :=
    seededChoice_mem _ _ (ctaPool_ne_nil product)
  have htail := allCtaOptions_tail_search _ (ctaPool_subset product _ hmem)
  have heq : cleaned ++ ". ".data ++ _cta_for_product_var product key ++ ".".data =
      cleaned ++ ('.' :: ' ' :: (_cta_for_product_var product key ++ ".".data)) := by
    simp [List.append_assoc]
  unfold ctaSearch
  rw [heq]
  exact ctaSearchAux_append_of_suffix cleaned _ (cta_tail_search _ htail) none

/-- C3: `ensure_cta` is idempotent for every product, text and key; a text
already containing a recognized CTA token is returned unchanged, and the
repaired text of a non-blank CTA-free input always contains a recognized
CTA token (every phrase in every pool carries one), so a second application
is a no-op. -/
theorem c3_ensure_cta_idempotent (product text key : List Char) :
    ensure_cta product (ensure_cta product text key) key = ensure_cta product text key ∧
      (ctaSearch text = true → ensure_cta product text key = text) ∧
      (ctaSearch text = false → pyStrip text ≠ [] →
        ctaSearch (ensure_cta product text key) = true) := by
  by_cases hemp : pyStrip text = []
  · have h1 : ensure_cta product text key = text := ensure_cta_of_blank product text key hemp
    exact ⟨by rw [h1]; exact h1, fun _ => h1, fun _ hne => absurd hemp hne⟩
  · by_cases hcta : ctaSearch text = true
    · have h1 : ensure_cta product text key = text := ensure_cta_of_found product text key hcta
      refine ⟨by rw [h1]; exact h1, fun _ => h1, fun hf _ => ?_⟩
      rw [hf] at hcta
      exact absurd hcta (by decide)
    · have hcf : ¬ (ctaSearch text = true) := hcta
      have h1 : ensure_cta product text key =
          rstripWs (rstripDotBangQm (rstripWs text)) ++ ". ".data ++
            _cta_for_product_var product (if key ≠ [] then key else product) ++ ".".data := by
        unfold ensure_cta
        rw [if_neg hemp, if_neg hcf]
      have hres : ctaSearch (ensure_cta product text key) = true := by
        rw [h1]
        exact cta_var_tail_search _ _ _
      exact ⟨ensure_cta_of_found product _ key hres, fun ht => absurd ht hcf,
        fun _ _ => hres⟩

/-- Witness for C3: a CTA-free text gains a CTA and a second application
changes nothing. -/
theorem c3_ensure_cta_idempotent_witness :
    ctaSearch (ensure_cta "Инвестиции".data "Привет".data "7".data) = true ∧
      ensure_cta "Инвестиции".data
          (ensure_cta "Инвестиции".data "Привет".data "7".data) "7".data =
        ensure_cta "Инвестиции".data "Привет".data "7".data :=
  ⟨(c3_ensure_cta_idempotent "Инвестиции".data "Привет".data "7".data).2.2
      (by decide) (by decide),
    (c3_ensure_cta_idempotent "Инвестиции".data "Привет".data "7".data).1⟩

/-! ## Claim C8 -/

/-- A context bag with every key absent. -/
def ctxNone : PushCtx := ⟨none, none, none, none, none, none, none, none, none⟩

/-- C8 counterexample: the renderer only collapses runs of consecutive
bangs; two separated `!` characters supplied through the name survive to
the output, so the claimed at-most-one-`!` invariant fails over all
inputs. -/
theorem c8_two_bangs_counterexample :
    List.count '!' (generate_personalized_push "Инвестиции".data "Ия! Ал!".data
        "мае".data ctxNone none (some 10000)) = 2 ∧
      1 < List.count '!' (generate_personalized_push "Инвестиции".data "Ия! Ал!".data
        "мае".data ctxNone none (some 10000)) := by
  set_option maxRecDepth 4000 in decide

lemma noBang_of_sublist {a b : List Char} (h : List.Sublist a b) (hb : '!' ∉ b) :
    '!' ∉ a :=
  fun ha => hb (h.subset ha)

lemma noBang_append {a b : List Char} (ha : '!' ∉ a) (hb : '!' ∉ b) : '!' ∉ a ++ b := by
  intro h
  rcases List.mem_append.mp h with h | h
  exacts [ha h, hb h]

lemma rstripP_sublist (p : Char → Bool) (l : List Char) : List.Sublist (rstripP p l) l := by
  unfold rstripP
  have h : List.Sublist (l.reverse.dropWhile p) l.reverse := List.dropWhile_sublist p
  have h2 := h.reverse
  rwa [List.reverse_reverse] at h2

lemma noBang_rstripP (p : Char → Bool) (l : List Char) (h : '!' ∉ l) :
    '!' ∉ rstripP p l :=
  noBang_of_sublist (rstripP_sublist p l) h

lemma pyStrip_sublist (l : List Char) : List.Sublist (pyStrip l) l :=
  (rstripP_sublist isPySpace (lstripP isPySpace l)).trans (List.dropWhile_sublist isPySpace)

lemma noBang_pyStrip (l : List Char) (h : '!' ∉ l) : '!' ∉ pyStrip l :=
  noBang_of_sublist (pyStrip_sublist l) h

lemma noBang_take (n : Nat) (l : List Char) (h : '!' ∉ l) : '!' ∉ l.take n :=
  noBang_of_sublist (List.take_sublist n l) h

lemma noBang_drop (n : Nat) (l : List Char) (h : '!' ∉ l) : '!' ∉ l.drop n :=
  noBang_of_sublist (List.drop_sublist n l) h

lemma noBang_pySliceTo (l : List Char) (i : Int) (h : '!' ∉ l) : '!' ∉ pySliceTo l i := by
  unfold pySliceTo
  split_ifs
  · exact noBang_take _ _ h
  · exact noBang_take _ _ h

lemma collapseBangsAux_subset (c : Char) :
    ∀ (prev : Char) (l : List Char), c ∈ collapseBangsAux prev l → c ∈ l := by
  intro prev l
  induction l generalizing prev with
  | nil => simp [collapseBangsAux]
  | cons x xs ih =>
    simp only [collapseBangsAux]
    split_ifs
    · intro hm
      exact List.mem_cons_of_mem x (ih prev hm)
    · intro hm
      rcases List.mem_cons.mp hm with rfl | hm
      · exact List.mem_cons_self _ _
      · exact List.mem_cons_of_mem x (ih x hm)

lemma noBang_collapseBangs (l : List Char) (h : '!' ∉ l) : '!' ∉ collapseBangs l := by
  cases l with
  | nil => simp [collapseBangs]
  | cons c rest =>
    simp only [collapseBangs]
    intro hm
    rcases List.mem_cons.mp hm with rfl | hm
    · exact h (List.mem_cons_self _ _)
    · exact h (List.mem_cons_of_mem c (collapseBangsAux_subset _ c rest hm))

lemma noBang_tryStops (head : List Char) (budget : Int) (h : '!' ∉ head) :
    '!' ∉ tryStops head budget := by
  simp only [tryStops]
  split_ifs
  · exact noBang_rstripP _ _ (noBang_pySliceTo _ _ h)
  · exact noBang_rstripP _ _ (noBang_pySliceTo _ _ h)
  · exact noBang_rstripP _ _ (noBang_pySliceTo _ _ h)
  · exact noBang_append (noBang_rstripP _ _ (noBang_pySliceTo _ _ h)) (by decide)
  · exact noBang_append (noBang_rstripP _ _ h) (by decide)

lemma noBang_noCtaCut (cut : List Char) (maxLen : Nat) (h : '!' ∉ cut) :
    '!' ∉ noCtaCut cut maxLen := by
  simp only [noCtaCut]
  split_ifs
  · exact noBang_rstripP _ _ (noBang_pySliceTo _ _ h)
  · exact noBang_rstripP _ _ (noBang_pySliceTo _ _ h)
  · exact noBang_rstripP _ _ (noBang_pySliceTo _ _ h)
  · exact noBang_append (noBang_rstripP _ _ (noBang_pySliceTo _ _ h)) (by decide)
  · exact noBang_append (noBang_rstripP _ _ h) (by decide)

lemma noBang_smartClamp (text : List Char) (maxLen : Nat) (h : '!' ∉ text) :
    '!' ∉ smartClamp text maxLen := by
  have ht : '!' ∉ collapseBangs (pyStrip text) :=
    noBang_collapseBangs _ (noBang_pyStrip _ h)
  simp only [smartClamp]
  split_ifs
  · exact ht
  · split
    · next st _ =>
      split_ifs
      · exact noBang_pyStrip _ (noBang_append (noBang_append
          (noBang_tryStops _ _ (noBang_take _ _ ht)) (by decide))
          (noBang_rstripP _ _ (noBang_drop _ _ ht)))
      · exact noBang_pyStrip _ (noBang_append (noBang_append
          (noBang_tryStops _ _ (noBang_take _ _ ht)) (by decide))
          (noBang_append (noBang_rstripP _ _ (noBang_drop _ _ ht)) (by decide)))
    · next => exact noBang_noCtaCut _ _ (noBang_take _ _ ht)

lemma noBang_getD (o : Option (List Char)) (d : List Char)
    (ho : ∀ s, o = some s → '!' ∉ s) (hd : '!' ∉ d) : '!' ∉ o.getD d := by
  cases o with
  | none => exact hd
  | some s => exact ho s rfl

lemma noBang_seededChoice (seed : List Char) (opts : List (List Char))
    (h : ∀ o ∈ opts, '!' ∉ o) : '!' ∉ seededChoice seed opts := by
  unfold seededChoice
  split
  · exact h _ (List.get_mem _ _ _)
  · simp

lemma bang_notin_digit : ∀ k < 10, '!' ∉ [Char.ofNat (48 + k)] := by decide

lemma noBang_natToChars : ∀ n, '!' ∉ natToChars n := by
  intro n
  induction n using Nat.strong_induction_on with
  | _ n ih =>
    unfold natToChars
    split_ifs with h
    · exact bang_notin_digit n h
    · intro hm
      rcases List.mem_append.mp hm with h1 | h2
      · exact ih (n / 10) (Nat.div_lt_self (by omega) (by omega)) h1
      · exact bang_notin_digit (n % 10) (Nat.mod_lt _ (by omega)) h2

lemma noBang_intToChars (n : ℤ) : '!' ∉ intToChars n := by
  unfold intToChars
  split_ifs
  · intro hm
    rcases List.mem_cons.mp hm with h | h
    · exact absurd h (by decide)
    · exact noBang_natToChars _ h
  · exact noBang_natToChars _

lemma noBang_showOptInt (o : Option ℤ) : '!' ∉ showOptInt o := by
  cases o with
  | none => decide
  | some n => exact noBang_intToChars n

lemma noBang_joinWith (sep : List Char) (hsep : '!' ∉ sep) :
    ∀ xs, (∀ x ∈ xs, '!' ∉ x) → '!' ∉ joinWith sep xs
  | [] => fun _ => by simp [joinWith]
  | [x] => fun h => by simpa [joinWith] using h x (by simp)
  | x :: y :: rest => fun h => by
    simp only [joinWith]
    exact noBang_append (noBang_append (h x (by simp)) hsep)
      (noBang_joinWith sep hsep (y :: rest) (fun z hz => h z (List.mem_cons_of_mem x hz)))

lemma noBang_ctaPool (product : List Char) : ∀ o ∈ ctaPool product, '!' ∉ o := by
  unfold ctaPool
  split_ifs <;> decide

lemma noBang_cta_var (product key : List Char) : '!' ∉ _cta_for_product_var product key :=
  noBang_seededChoice _ _ (noBang_ctaPool product)

lemma noBang_benefitCandidates (product : List Char) :
    ∀ o ∈ benefitCandidates product, '!' ∉ o := by
  unfold benefitCandidates
  split_ifs <;> decide

lemma noBang_namePartOf (name : List Char) (hn : '!' ∉ name) : '!' ∉ namePartOf name := by
  unfold namePartOf
  split_ifs
  · exact noBang_append hn (by decide)
  · decide

lemma noBang_cityHintOf (city : Option (List Char))
    (hc : ∀ c, city = some c → '!' ∉ c) : '!' ∉ cityHintOf city := by
  cases city with
  | none => simp [cityHintOf]
  | some c =>
    simp only [cityHintOf]
    split_ifs
    · exact noBang_append (by decide) (noBang_pyStrip _ (hc c rfl))
    · simp

lemma noBang_tone_preamble (name : List Char) (status : Option (List Char))
    (age : Option ℤ) (city : Option (List Char)) (hn : '!' ∉ name)
    (hc : ∀ c, city = some c → '!' ∉ c) :
    '!' ∉ _tone_preamble name status age city := by
  unfold _tone_preamble
  split_ifs
  · exact noBang_append (noBang_append (noBang_append (noBang_namePartOf name hn)
      (by decide)) (noBang_cityHintOf city hc)) (by decide)
  · exact noBang_append (noBang_namePartOf name hn) (by decide)
  · exact noBang_append (noBang_namePartOf name hn) (by decide)
  · exact noBang_append (noBang_namePartOf name hn) (by decide)

lemma noBang_month_hint (month : List Char) (h : '!' ∉ month) : '!' ∉ _month_hint month := by
  unfold _month_hint
  split_ifs
  · exact noBang_pyStrip _ h
  · decide

lemma noBang_benefitExtras (product : List Char) (ctx : PushCtx)
    (htravel : ∀ s, ctx.travel_sum = some s → '!' ∉ s)
    (hprem : ∀ s, ctx.premium_sum = some s → '!' ∉ s)
    (honline : ∀ s, ctx.online_sum = some s → '!' ∉ s) :
    ∀ x ∈ benefitExtras product ctx, '!' ∉ x := by
  intro x hx
  unfold benefitExtras at hx
  simp only [List.mem_append] at hx
  rcases hx with ((hx | hx) | hx) | hx <;> revert hx <;> split_ifs <;>
    intro hx <;> simp only [List.mem_singleton, List.not_mem_nil] at hx <;> subst hx
  · exact noBang_append (by decide) (noBang_getD _ _ htravel (by simp))
  · exact noBang_append (by decide) (noBang_getD _ _ hprem (by simp))
  · exact noBang_append (by decide) (noBang_getD _ _ honline (by simp))
  · exact noBang_append (noBang_append (noBang_append (by decide)
      (noBang_showOptInt _)) (by decide)) (noBang_showOptInt _)

lemma noBang_benefitTail (product : List Char) (ctx : PushCtx)
    (htravel : ∀ s, ctx.travel_sum = some s → '!' ∉ s)
    (hprem : ∀ s, ctx.premium_sum = some s → '!' ∉ s)
    (honline : ∀ s, ctx.online_sum = some s → '!' ∉ s) :
    '!' ∉ benefitTail product ctx := by
  unfold benefitTail
  split_ifs
  · exact noBang_append (by decide)
      (noBang_joinWith _ (by decide) _ (noBang_benefitExtras product ctx htravel hprem honline))
  · simp

lemma noBang_benefitCoreOptions (mon bTxt : List Char) (hmon : '!' ∉ mon)
    (hb : '!' ∉ bTxt) : ∀ o ∈ benefitCoreOptions mon bTxt, '!' ∉ o := by
  intro o ho
  simp only [benefitCoreOptions, List.mem_cons, List.not_mem_nil, or_false] at ho
  rcases ho with rfl | rfl | rfl | rfl
  · exact noBang_append (noBang_append (noBang_append (noBang_append (by decide) hmon)
      (by decide)) hb) (by decide)
  · exact noBang_append (noBang_append (noBang_append (noBang_append (by decide) hmon)
      (by decide)) hb) (by decide)
  · exact noBang_append (noBang_append (noBang_append (noBang_append (by decide) hmon)
      (by decide)) hb) (by decide)
  · exact noBang_append (noBang_append (noBang_append (noBang_append (by decide) hmon)
      (by decide)) hb) (by decide)

lemma noBang_benefitReasonParts (product : List Char) (ctx : PushCtx)
    (htravel : ∀ s, ctx.travel_sum = some s → '!' ∉ s)
    (hprem : ∀ s, ctx.premium_sum = some s → '!' ∉ s) :
    ∀ x ∈ benefitReasonParts product ctx, '!' ∉ x := by
  intro x hx
  unfold benefitReasonParts at hx
  simp only [List.mem_append] at hx
  rcases hx with ((hx | hx) | hx) | hx <;> revert hx <;> split_ifs <;>
    intro hx <;> simp only [List.mem_singleton, List.not_mem_nil] at hx <;> subst hx
  · exact noBang_append (noBang_append (by decide) (noBang_getD _ _ htravel (by simp)))
      (by decide)
  · exact noBang_append (noBang_append (by decide) (noBang_getD _ _ hprem (by simp)))
      (by decide)
  · decide
  · decide

lemma noBang_benefitReasonOpt (product : List Char) (ctx : PushCtx)
    (htravel : ∀ s, ctx.travel_sum = some s → '!' ∉ s)
    (hprem : ∀ s, ctx.premium_sum = some s → '!' ∉ s) :
    '!' ∉ benefitReasonOpt product ctx := by
  unfold benefitReasonOpt
  split_ifs
  · simp
  · exact noBang_pyStrip _ (noBang_append
      (noBang_joinWith _ (by decide) _ (noBang_benefitReasonParts product ctx htravel hprem))
      (by decide))

lemma noBang_benefit_phrase (product mon : List Char) (ctx : PushCtx) (key : List Char)
    (hmon : '!' ∉ mon)
    (hbenefit : ∀ s, ctx.benefit = some s → '!' ∉ s)
    (htravel : ∀ s, ctx.travel_sum = some s → '!' ∉ s)
    (hprem : ∀ s, ctx.premium_sum = some s → '!' ∉ s)
    (honline : ∀ s, ctx.online_sum = some s → '!' ∉ s) :
    '!' ∉ _benefit_phrase product mon ctx key := by
  unfold _benefit_phrase
  split_ifs
  · exact noBang_append (noBang_seededChoice _ _ (noBang_benefitCandidates product))
      (noBang_benefitTail product ctx htravel hprem honline)
  · refine noBang_append (noBang_append (noBang_seededChoice _ _
      (noBang_benefitCoreOptions _ _ hmon (noBang_getD _ _ hbenefit (by decide))))
      (by decide)) (noBang_seededChoice _ _ ?_)
    intro o ho
    simp only [List.mem_cons, List.not_mem_nil, or_false] at ho
    rcases ho with rfl | rfl
    · simp
    · exact noBang_benefitReasonOpt product ctx htravel hprem

set_option maxHeartbeats 2000000 in
lemma noBang_pushLead (product mon : List Char) (ctx : PushCtx)
    (city : Option (List Char)) (hmon : '!' ∉ mon)
    (htravel : ∀ s, ctx.travel_sum = some s → '!' ∉ s)
    (hprem : ∀ s, ctx.premium_sum = some s → '!' ∉ s)
    (honline : ∀ s, ctx.online_sum = some s → '!' ∉ s)
    (htop3 : ∀ s, ctx.top3_names = some s → '!' ∉ s)
    (hfav : ∀ s, ctx.fav = some s → '!' ∉ s)
    (hcity : ∀ c, city = some c → '!' ∉ c) :
    '!' ∉ pushLead product mon ctx city := by
  unfold pushLead
  split_ifs <;> intro hm <;>
    (repeat' rcases List.mem_append.mp hm with hm | hm) <;>
    first
    | exact hmon hm
    | exact noBang_getD _ _ htravel (by decide) hm
    | exact noBang_getD _ _ hprem (by decide) hm
    | exact noBang_getD _ _ honline (by decide) hm
    | exact noBang_getD _ _ htop3 (by decide) hm
    | exact noBang_getD _ _ hfav (by decide) hm
    | exact noBang_getD _ _ hcity (by decide) hm
    | exact absurd hm (by decide)

/-- C8 (amended): the renderer collapses only runs of consecutive `!`, so
the at-most-one-`!` invariant holds for every product, demographics and
length cap provided the caller-supplied strings (name, month, city and the
formatted context values) themselves contain no `!` — none of the fixed
templates, pools or CTA phrases contains one, so the output then contains
none at all; a `!` injected through an input survives (see the
counterexample). -/
theorem c8_bang_bound_amended (product name month : List Char) (ctx : PushCtx)
    (demo : Option Demo) (max_len : Option ℤ)
    (hname : '!' ∉ name) (hmonth : '!' ∉ month)
    (hcity : ∀ c, (demo.getD ⟨none, none, none⟩).city = some c → '!' ∉ c)
    (hbenefit : ∀ s, ctx.benefit = some s → '!' ∉ s)
    (htravel : ∀ s, ctx.travel_sum = some s → '!' ∉ s)
    (hprem : ∀ s, ctx.premium_sum = some s → '!' ∉ s)
    (honline : ∀ s, ctx.online_sum = some s → '!' ∉ s)
    (htop3 : ∀ s, ctx.top3_names = some s → '!' ∉ s)
    (hfav : ∀ s, ctx.fav = some s → '!' ∉ s) :
    List.count '!' (generate_personalized_push product name month ctx demo max_len) ≤ 1 := by
  have hnb : '!' ∉ generate_personalized_push product name month ctx demo max_len := by
    simp only [generate_personalized_push]
    apply noBang_smartClamp
    exact noBang_append (noBang_append (noBang_append (noBang_append (noBang_append
      (noBang_append
        (noBang_tone_preamble _ _ _ _ hname hcity)
        (by decide))
      (noBang_pushLead _ _ _ _ (noBang_month_hint _ hmonth) htravel hprem honline htop3 hfav hcity))
      (noBang_benefit_phrase _ _ _ _ (noBang_month_hint _ hmonth) hbenefit htravel hprem honline))
      (by decide))
      (noBang_cta_var _ _))
      (by decide)
  rw [List.count_eq_zero.mpr hnb]
  omega

/-- Witness for C8 on a concrete bang-free input set. -/
theorem c8_bang_bound_amended_witness :
    List.count '!' (generate_personalized_push "Премиальная карта".data "Анна".data
        "мае".data ctxNone (some ⟨some "премиальный".data, none, some "Алматы".data⟩)
        none) ≤ 1 :=
  c8_bang_bound_amended "Премиальная карта".data "Анна".data "мае".data ctxNone
    (some ⟨some "премиальный".data, none, some "Алматы".data⟩) none
    (by decide) (by decide)
    (by intro c hc; cases hc; decide)
    (by intro s hs; cases hs) (by intro s hs; cases hs) (by intro s hs; cases hs)
    (by intro s hs; cases hs) (by intro s hs; cases hs) (by intro s hs; cases hs)
